import Mathlib

/-!
Verification development for the arbitrage core of this repository
(`src/phase3_advanced_arbitrage_final.py`, class `ArbitrageAnalyzer`).

Modelling conventions:
* Python floats are modelled as exact rationals (`ℚ`).  All comparisons and
  arithmetic in the source are ordinary field operations, so `ℚ` is a faithful
  idealisation except where noted (the statistical scan's standard deviation,
  see `statPairAt`).
* Python dicts are modelled as association lists in insertion order
  (`alookup` / `upsert`): writing an existing key keeps its position,
  writing a new key appends it — exactly Python's dict semantics.
* `datetime.now()` is modelled by threading an explicit `now : ℚ` argument
  through every operation that reads the clock.
* Python's `str.endswith` and `str.replace` (replace all non-overlapping
  occurrences, scanning left to right) are modelled on the character list of
  the string by `pyEndsWith` and `pyReplace`.
-/

/-- Python `str.endswith`: `suf` is a suffix of `s` (on character lists). -/
def pyEndsWith (s suf : String) : Bool :=
  suf.data.isSuffixOf s.data

/-- Core of Python `str.replace`: scan left to right, replacing each
non-overlapping occurrence of `pat` by `repl`.  (For the empty pattern Python
inserts `repl` between all characters; the sources only ever use non-empty
patterns, for which this definition agrees with Python.)  The structural
recursion runs on a fuel counter so that the kernel can evaluate it; every
step consumes at least one character, so fuel equal to the length of the
scanned list (as supplied by `pyReplace`) is always sufficient, and the
fuel-exhausted case is unreachable for that choice. -/
def replaceCore (pat repl : List Char) : ℕ → List Char → List Char
  | 0, l => l
  | _ + 1, [] => []
  | fuel + 1, c :: rest =>
    if pat ≠ [] ∧ pat.isPrefixOf (c :: rest) then
      repl ++ replaceCore pat repl fuel (rest.drop (pat.length - 1))
    else
      c :: replaceCore pat repl fuel rest

/-- Python `str.replace` on strings. -/
def pyReplace (s pat repl : String) : String :=
  ⟨replaceCore pat.data repl.data s.data.length s.data⟩

/-- Lookup in a Python-dict-as-association-list (first matching key). -/
def alookup {α : Type} : List (String × α) → String → Option α
  | [], _ => none
  | (k', v') :: rest, k => if k' = k then some v' else alookup rest k

/-- Python dict assignment `d[k] = v`: overwrite in place if the key exists,
append at the end otherwise. -/
def upsert {α : Type} : List (String × α) → String → α → List (String × α)
  | [], k, v => [(k, v)]
  | (k', v') :: rest, k, v =>
    if k' = k then (k, v) :: rest else (k', v') :: upsert rest k v

/-- Two-level dict lookup `d[ex][sym]` guarded by membership tests. -/
def alookup2 {α : Type} (d : List (String × List (String × α))) (ex sym : String) :
    Option α :=
  (alookup d ex).bind (fun inner => alookup inner sym)

/-- `ExchangePrice` dataclass of the source: one source's latest quote for one
instrument. -/
structure ExchangePrice where
  exchange : String
  symbol : String
  bid_price : ℚ
  ask_price : ℚ
  volume : ℚ
  timestamp : ℚ
deriving DecidableEq

/-- One entry of `price_history[exchange][symbol]` — the dict literal appended
in `update_price_data`. -/
structure HistEntry where
  timestamp : ℚ
  bid : ℚ
  ask : ℚ
  mid : ℚ
  spread : ℚ
  volume : ℚ
deriving DecidableEq

/-- Confidence value of an opportunity.  All scans except the statistical one
compute a rational confidence (`rat`).  The statistical scan's confidence is
`min 0.9 (|z| / 3)` where `z = (current − mean) / sqrt variance`; the square
root of a rational is not rational, so the value is recorded symbolically by
its two determining rationals (`zOver3 |current − mean| variance` denotes
`min 0.9 ((absdev / sqrt variance) / 3)`).  No claim depends on this value. -/
inductive Confidence where
  | rat (q : ℚ)
  | zOver3 (absdev : ℚ) (variance : ℚ)
deriving DecidableEq

/-- `ArbitrageOpportunity` dataclass of the source. -/
structure ArbitrageOpportunity where
  type : String
  symbol : String
  buy_price : ℚ
  sell_price : ℚ
  buy_exchange : String
  sell_exchange : String
  spread : ℚ
  profit_percent : ℚ
  volume : ℚ
  timestamp : ℚ
  confidence : Confidence
deriving DecidableEq

/-- State of an `ArbitrageAnalyzer` instance.  The four minimum-profit
thresholds are the four entries of the source's `min_profit_threshold` dict
(keys `cross_exchange`, `triangular`, `statistical`, `future_spot`); they and
`exchanges` / `trading_fees` are instance attributes set in `__init__`, kept
as state fields here so that theorems can quantify over configurations.
`withdrawal_fees`, `executed_trades`, `correlation_matrix` and
`cointegration_pairs` are never read by the scans and are omitted. -/
structure ArbitrageAnalyzer where
  exchanges : List String
  trading_fees : List (String × ℚ)
  min_profit_cross : ℚ
  min_profit_triangular : ℚ
  min_profit_statistical : ℚ
  min_profit_future_spot : ℚ
  price_data : List (String × List (String × ExchangePrice))
  price_history : List (String × List (String × List HistEntry))
  arbitrage_opportunities : List ArbitrageOpportunity
deriving DecidableEq

/-- The state built by `ArbitrageAnalyzer.__init__`. -/
def initState : ArbitrageAnalyzer where
  exchanges := ["OKX", "Binance", "Bybit", "Upbit", "Bithumb", "Coinone"]
  trading_fees := [("OKX", 1/1000), ("Binance", 1/1000), ("Bybit", 1/1000),
                   ("Upbit", 5/10000), ("Bithumb", 25/10000), ("Coinone", 2/1000)]
  min_profit_cross := 5/1000
  min_profit_triangular := 2/1000
  min_profit_statistical := 3/1000
  min_profit_future_spot := 1/1000
  price_data := []
  price_history := []
  arbitrage_opportunities := []

/-- `self.price_history[...][-1000:]` trimming step of `update_price_data`:
keep the last 1000 entries when the list exceeds 1000. -/
def trimHist (l : List HistEntry) : List HistEntry :=
  if l.length > 1000 then l.drop (l.length - 1000) else l

/-- `ArbitrageAnalyzer.update_price_data` (source lines 89–107): store the
quote as latest for `(exchange, symbol)` and append the derived history entry,
trimming the history to its last 1000 entries.  The source performs no
validation of `bid`, `ask` or `volume`. -/
def update_price_data (st : ArbitrageAnalyzer) (exchange symbol : String)
    (bid ask volume now : ℚ) : ArbitrageAnalyzer :=
  let exmap := (alookup st.price_data exchange).getD []
  let price_data' := upsert st.price_data exchange
    (upsert exmap symbol ⟨exchange, symbol, bid, ask, volume, now⟩)
  let hxmap := (alookup st.price_history exchange).getD []
  let hist := (alookup hxmap symbol).getD []
  let hist2 := hist ++ [⟨now, bid, ask, (bid + ask) / 2, ask - bid, volume⟩]
  { st with
      price_data := price_data'
      price_history := upsert st.price_history exchange (upsert hxmap symbol (trimHist hist2)) }

/-- The latest quote for a key, `self.price_data[exchange][symbol]`
(`NotFound` modelled as `none`). -/
def latestAt (st : ArbitrageAnalyzer) (ex sym : String) : Option ExchangePrice :=
  alookup2 st.price_data ex sym

/-- The history list for a key, empty when the key is unknown. -/
def histAt (st : ArbitrageAnalyzer) (ex sym : String) : List HistEntry :=
  (alookup ((alookup st.price_history ex).getD []) sym).getD []

/-- `self.trading_fees.get(exchange, 0.001)` (source lines 126–127). -/
def tradingFee (fees : List (String × ℚ)) (ex : String) : ℚ :=
  (alookup fees ex).getD (1/1000)

/-- `net_buy_price = buy_price + buy_price * fee` (source lines 126, 128). -/
def netBuyPrice (fees : List (String × ℚ)) (ex : String) (buy_price : ℚ) : ℚ :=
  buy_price + buy_price * tradingFee fees ex

/-- `net_sell_price = sell_price - sell_price * fee` (source lines 127, 129). -/
def netSellPrice (fees : List (String × ℚ)) (ex : String) (sell_price : ℚ) : ℚ :=
  sell_price - sell_price * tradingFee fees ex

/-- Spec-level profit ratio of an opportunity.  The source stores the profit
as a percentage (`profit_percent = spread / net_buy_price * 100`); the spec's
unitless profit ratio is that value divided by 100. -/
def profitRat (op : ArbitrageOpportunity) : ℚ :=
  op.profit_percent / 100

/-- `ArbitrageAnalyzer.find_cross_exchange_arbitrage` (source lines 111–146).
`exchange_prices` is built keyed by the (assumed duplicate-free) entries of
`self.exchanges` that quote `symbol`, in that order; the double loop then
ranges over ordered pairs of distinct sources. -/
def find_cross_exchange_arbitrage (st : ArbitrageAnalyzer) (symbol : String)
    (now : ℚ) : List ArbitrageOpportunity :=
  let exchange_prices :=
    st.exchanges.filterMap (fun ex => (alookup2 st.price_data ex symbol).map (fun p => (ex, p)))
  if exchange_prices.length < 2 then [] else
  exchange_prices.flatMap (fun bp =>
    exchange_prices.filterMap (fun sp =>
      if bp.1 = sp.1 then none else
      let buy_price := bp.2.ask_price
      let sell_price := sp.2.bid_price
      let net_buy_price := netBuyPrice st.trading_fees bp.1 buy_price
      let net_sell_price := netSellPrice st.trading_fees sp.1 sell_price
      if net_sell_price > net_buy_price then
        let spread := net_sell_price - net_buy_price
        let profit_percent := spread / net_buy_price * 100
        if profit_percent ≥ st.min_profit_cross * 100 then
          some ⟨"cross_exchange", symbol, buy_price, sell_price, bp.1, sp.1,
                spread, profit_percent, min bp.2.volume sp.2.volume, now,
                Confidence.rat (min (9/10) (profit_percent / 2))⟩
        else none
      else none))

/-- `ArbitrageAnalyzer.find_triangular_arbitrage` (source lines 148–201).
Only exchange `"OKX"` is scanned.  For each ordered pair of distinct
base-quoted symbols, the cross pair `c1-c2` is preferred; when only `c2-c1`
is quoted the branch flag `direct` is false and — exactly as in the source,
whose `if direct:` has no `else` — nothing is emitted from that iteration. -/
def find_triangular_arbitrage (st : ArbitrageAnalyzer) (base : String)
    (now : ℚ) : List ArbitrageOpportunity :=
  match alookup st.price_data "OKX" with
  | none => []
  | some prices =>
    let available := prices.map (fun kv => kv.1)
    available.flatMap (fun symbol1 =>
      if pyEndsWith symbol1 ("-" ++ base) then
        let currency1 := pyReplace symbol1 ("-" ++ base) ""
        available.flatMap (fun symbol2 =>
          if pyEndsWith symbol2 ("-" ++ base) then
            let currency2 := pyReplace symbol2 ("-" ++ base) ""
            if currency1 = currency2 then [] else
            let cross1 := currency1 ++ "-" ++ currency2
            let cross2 := currency2 ++ "-" ++ currency1
            let choice : Option (String × Bool) :=
              if (alookup prices cross1).isSome then some (cross1, true)
              else if (alookup prices cross2).isSome then some (cross2, false)
              else none
            match choice with
            | none => []
            | some (cross_symbol, direct) =>
              match alookup prices symbol1, alookup prices symbol2,
                    alookup prices cross_symbol with
              | some price1, some price2, some cross_price =>
                if direct then
                  let theoretical_cross := price1.bid_price / price2.ask_price
                  let actual_cross := cross_price.ask_price
                  if theoretical_cross > actual_cross * (1001/1000) then
                    let profit_percent :=
                      (theoretical_cross - actual_cross) / actual_cross * 100
                    if profit_percent ≥ st.min_profit_triangular * 100 then
                      [⟨"triangular", currency1 ++ "-" ++ currency2 ++ "-" ++ base,
                        actual_cross, theoretical_cross, "OKX", "OKX",
                        theoretical_cross - actual_cross, profit_percent,
                        min (min price1.volume price2.volume) cross_price.volume,
                        now, Confidence.rat (4/5)⟩]
                    else []
                  else []
                else []
              | _, _, _ => []
          else [])
      else [])

/-- Mean of a rational list, `np.mean` (division by the length; `0` for the
empty list via rational division by zero, which no reachable branch hits). -/
def pyMean (l : List ℚ) : ℚ :=
  l.sum / l.length

/-- Population variance of a rational list, the square of `np.std`
(`np.std` uses `ddof = 0`). -/
def pyVarPop (l : List ℚ) : ℚ :=
  ((l.map (fun x => (x - pyMean l) ^ 2)).sum) / l.length

/-- Last `n` elements of a list, Python's `l[-n:]` for `n ≤ len(l)`. -/
def lastN {α : Type} (n : ℕ) (l : List α) : List α :=
  l.drop (l.length - n)

/-- The elementwise ratio series `np.array(prices1) / np.array(prices2)` of
the last 50 mid prices of two histories (source lines 223–225). -/
def ratioSeries (h1 h2 : List HistEntry) : List ℚ :=
  List.zipWith (fun a b => a / b)
    ((lastN 50 h1).map (fun e => e.mid)) ((lastN 50 h2).map (fun e => e.mid))

/-- The ratio series the statistical scan would use for `(ex, s1, s2)` in
state `st`, and `[]` whenever the scan's data guards fail for that key. -/
def ratioSeriesAt (st : ArbitrageAnalyzer) (ex s1 s2 : String) : List ℚ :=
  match alookup2 st.price_history ex s1, alookup2 st.price_history ex s2 with
  | some h1, some h2 =>
    if h1.length > 50 ∧ h2.length > 50 then ratioSeries h1 h2 else []
  | _, _ => []

/-- Body of `ArbitrageAnalyzer.find_statistical_arbitrage` for one candidate
pair on one exchange (source lines 211–248).

The source computes `std_ratio = np.std(ratio)`,
`z_score = (current_ratio - mean_ratio) / std_ratio`, emits when
`abs(z_score) > 2`, and uses
`profit_percent = abs(z_score) * std_ratio / current_ratio * 100`.
A rational embedding cannot take the square root, so the same conditions are
expressed through the variance, exactly equivalent for `std_ratio > 0`:
`|z| > 2 ↔ (current − mean)² > 4·variance` and
`|z| · std = |current − mean|`, hence
`profit_percent = |current − mean| / current_ratio * 100`.

When the ratio series is constant, `std_ratio` is exactly `0.0` in the source
and IEEE semantics make the branch emit nothing (with `warnings` suppressed):
if `current = mean` then `z = nan` and `abs(nan) > 2` is false; otherwise
`z = ±inf`, `profit_percent = inf * 0.0 = nan` and `nan >= threshold` is
false.  The embedding mirrors that outcome with the explicit
`variance = 0 → none` case. -/
def statPairAt (st : ArbitrageAnalyzer) (s1 s2 : String) (now : ℚ)
    (ex : String) : Option ArbitrageOpportunity :=
  match alookup2 st.price_data ex s1, alookup2 st.price_data ex s2 with
  | some price1, some price2 =>
    match alookup2 st.price_history ex s1, alookup2 st.price_history ex s2 with
    | some hist1, some hist2 =>
      if hist1.length > 50 ∧ hist2.length > 50 then
        let ratios := ratioSeries hist1 hist2
        let mean_r := pyMean ratios
        let var_r := pyVarPop ratios
        let current_r := price1.bid_price / price2.ask_price
        if var_r = 0 then none
        else if (current_r - mean_r) ^ 2 > 4 * var_r then
          let profit_percent := |current_r - mean_r| / current_r * 100
          if profit_percent ≥ st.min_profit_statistical * 100 then
            if current_r - mean_r > 0 then
              some ⟨"statistical", s2 ++ "_" ++ s1, price2.ask_price,
                    price1.bid_price, ex, ex,
                    |price1.bid_price - price2.ask_price|, profit_percent,
                    min price1.volume price2.volume, now,
                    Confidence.zOver3 |current_r - mean_r| var_r⟩
            else
              some ⟨"statistical", s1 ++ "_" ++ s2, price1.ask_price,
                    price2.bid_price, ex, ex,
                    |price2.bid_price - price1.ask_price|, profit_percent,
                    min price1.volume price2.volume, now,
                    Confidence.zOver3 |current_r - mean_r| var_r⟩
          else none
        else none
      else none
    | _, _ => none
  | _, _ => none

/-- Ordered pairs `(l[i], l[j])` with `i < j` — the
`for i, symbol1 in enumerate(symbols): for symbol2 in symbols[i+1:]` loops. -/
def pairsOf {α : Type} : List α → List (α × α)
  | [] => []
  | x :: xs => xs.map (fun y => (x, y)) ++ pairsOf xs

/-- The hard-coded candidate universe of the statistical scan
(source line 206). -/
def statSymbols : List String := ["BTC-USDT", "ETH-USDT"]

/-- `ArbitrageAnalyzer.find_statistical_arbitrage` (source lines 203–251). -/
def find_statistical_arbitrage (st : ArbitrageAnalyzer) (now : ℚ) :
    List ArbitrageOpportunity :=
  if statSymbols.length < 2 then [] else
  (pairsOf statSymbols).flatMap (fun p =>
    st.exchanges.filterMap (statPairAt st p.1 p.2 now))

/-- `ArbitrageAnalyzer.find_future_spot_arbitrage` (source lines 253–284). -/
def find_future_spot_arbitrage (st : ArbitrageAnalyzer) (symbol : String)
    (now : ℚ) : List ArbitrageOpportunity :=
  let spot_symbol := symbol
  let future_symbol := pyReplace symbol "-USDT" "-USDT-SWAP"
  match alookup2 st.price_data "OKX" spot_symbol,
        alookup2 st.price_data "OKX" future_symbol with
  | some spot_price, some future_price =>
    let spread := future_price.bid_price - spot_price.ask_price
    if |spread| > spot_price.ask_price * st.min_profit_future_spot then
      let profit_percent := |spread| / spot_price.ask_price * 100
      let bs : ℚ × ℚ :=
        if spread > 0 then (spot_price.ask_price, future_price.bid_price)
        else (future_price.ask_price, spot_price.bid_price)
      [⟨"future_spot", spot_symbol ++ "_" ++ future_symbol, bs.1, bs.2,
        "OKX", "OKX", |spread|, profit_percent,
        min spot_price.volume future_price.volume, now,
        Confidence.rat (17/20)⟩]
    else []
  | _, _ => []

/-- The hard-coded instrument universe of `generate_arbitrage_signal`
(source line 289). -/
def signalSymbols : List String :=
  ["BTC-USDT", "ETH-USDT", "BNB-USDT", "ADA-USDT", "SOL-USDT", "XRP-USDT"]

/-- Concatenation of all scan results in the source's enumeration order
(source lines 288–296): per symbol cross-exchange then future-spot, then the
triangular scan (default base `USDT`), then the statistical scan. -/
def allOpportunities (st : ArbitrageAnalyzer) (now : ℚ) :
    List ArbitrageOpportunity :=
  (signalSymbols.flatMap (fun s =>
    find_cross_exchange_arbitrage st s now ++ find_future_spot_arbitrage st s now))
  ++ find_triangular_arbitrage st "USDT" now
  ++ find_statistical_arbitrage st now

/-- One step of Python's `max(..., key=...)`: keep the current element unless
the next one is strictly greater, so the first maximal element wins. -/
def pickStep (b x : ArbitrageOpportunity) : ArbitrageOpportunity :=
  if x.profit_percent > b.profit_percent then x else b

/-- `max(all_opportunities, key=lambda x: x.profit_percent)` on a non-empty
list given as head and tail. -/
def pickBest (o : ArbitrageOpportunity) (os : List ArbitrageOpportunity) :
    ArbitrageOpportunity :=
  os.foldl pickStep o

/-- Grade classification of `generate_arbitrage_signal`
(source lines 304–313). -/
def gradeOf (profit : ℚ) : String :=
  if profit ≥ 10 then "ARBITRAGE_GODLIKE"
  else if profit ≥ 5 then "ARBITRAGE_LEGENDARY"
  else if profit ≥ 1 then "ARBITRAGE_MEGA"
  else if profit ≥ 1/2 then "ARBITRAGE_ULTRA"
  else "ARBITRAGE_NORMAL"

/-- The dict returned by `generate_arbitrage_signal` (source lines 317–335):
the best opportunity's fields plus the total and per-kind counts. -/
structure ArbitrageSignal where
  grade : String
  best : ArbitrageOpportunity
  total_opportunities : ℕ
  cnt_cross : ℕ
  cnt_triangular : ℕ
  cnt_statistical : ℕ
  cnt_future_spot : ℕ
deriving DecidableEq

/-- `ArbitrageAnalyzer.generate_arbitrage_signal` (source lines 286–338).
Returns `None` when no scan produced an opportunity; otherwise picks the
first opportunity of maximal `profit_percent` (Python `max` semantics),
appends it to `self.arbitrage_opportunities` (source line 315) and returns
the signal dict.  The mutated analyzer state is returned as the second
component. -/
def generate_arbitrage_signal (st : ArbitrageAnalyzer) (now : ℚ) :
    Option ArbitrageSignal × ArbitrageAnalyzer :=
  match allOpportunities st now with
  | [] => (none, st)
  | o :: os =>
    let all := o :: os
    let best := pickBest o os
    let sig : ArbitrageSignal :=
      ⟨gradeOf best.profit_percent, best, all.length,
        (all.filter (fun x => x.type == "cross_exchange")).length,
        (all.filter (fun x => x.type == "triangular")).length,
        (all.filter (fun x => x.type == "statistical")).length,
        (all.filter (fun x => x.type == "future_spot")).length⟩
    (some sig,
      { st with arbitrage_opportunities := st.arbitrage_opportunities ++ [best] })

/-- One ingest call's numeric arguments (plus the clock value read by
`datetime.now()` during that call). -/
structure QuoteIn where
  bid : ℚ
  ask : ℚ
  volume : ℚ
  time : ℚ
deriving DecidableEq

/-- The history entry `update_price_data` derives from one ingest call. -/
def mkHistEntry (q : QuoteIn) : HistEntry :=
  ⟨q.time, q.bid, q.ask, (q.bid + q.ask) / 2, q.ask - q.bid, q.volume⟩

/-- Apply a sequence of ingest calls, all to the same `(exchange, symbol)`
key. -/
def applySameKey (st : ArbitrageAnalyzer) (ex sym : String)
    (qs : List QuoteIn) : ArbitrageAnalyzer :=
  qs.foldl (fun s q => update_price_data s ex sym q.bid q.ask q.volume q.time) st

/-- Apply a sequence of ingest calls to arbitrary keys. -/
def applyUpdates (st : ArbitrageAnalyzer)
    (us : List (String × String × QuoteIn)) : ArbitrageAnalyzer :=
  us.foldl (fun s u =>
    update_price_data s u.1 u.2.1 u.2.2.bid u.2.2.ask u.2.2.volume u.2.2.time) st

/-- The append-then-trim history evolution, isolated from the state. -/
def histFold (h : List HistEntry) (es : List HistEntry) : List HistEntry :=
  es.foldl (fun acc e => trimHist (acc ++ [e])) h

/-- A list all of whose elements are equal (a constant ratio series). -/
def ConstList (l : List ℚ) : Prop :=
  ∀ x ∈ l, ∀ y ∈ l, x = y

instance (l : List ℚ) : Decidable (ConstList l) := by
  unfold ConstList
  infer_instance

/-- Family of states with two sources `SrcA`, `SrcB` quoting `BTC-USDT`
(fees `fA`, `fB`; bid/ask/volume per source), default thresholds. -/
def mkTwoSourceState (fA fB abid aask va bbid bask vb : ℚ) : ArbitrageAnalyzer :=
  { initState with
      exchanges := ["SrcA", "SrcB"]
      trading_fees := [("SrcA", fA), ("SrcB", fB)]
      price_data :=
        [("SrcA", [("BTC-USDT", ⟨"SrcA", "BTC-USDT", abid, aask, va, 0⟩)]),
         ("SrcB", [("BTC-USDT", ⟨"SrcB", "BTC-USDT", bbid, bask, vb, 0⟩)])] }

/-- Concrete state: two zero-fee sources quoting `BTC-USDT` with source
`SrcA`'s ask (100) below source `SrcB`'s bid (101); the cross-source scan
emits one opportunity with a 1% profit. -/
def twoSourceState : ArbitrageAnalyzer :=
  mkTwoSourceState 0 0 99 100 5 101 102 7

/-- Concrete state: two zero-fee sources quoting `BTC-USDT` with `SrcA`'s ask
(100) below `SrcB`'s bid (100.1), but a raw margin of only 0.1%, below the
0.5% cross-exchange minimum threshold. -/
def twoSourceThinState : ArbitrageAnalyzer :=
  mkTwoSourceState 0 0 99 100 5 (1001/10) (501/5) 7

/-- Family of states for the triangular scan on `OKX`: `AAA-USDT` and
`BBB-USDT` quoted in the base, plus one cross instrument `crossSym`
(`AAA-BBB` or `BBB-AAA`), default thresholds. -/
def mkTriState (crossSym : String) (b1 a1 v1 b2 a2 v2 bc ac vc : ℚ) : ArbitrageAnalyzer :=
  { initState with
      price_data :=
        [("OKX",
          [("AAA-USDT", ⟨"OKX", "AAA-USDT", b1, a1, v1, 0⟩),
           ("BBB-USDT", ⟨"OKX", "BBB-USDT", b2, a2, v2, 0⟩),
           (crossSym, ⟨"OKX", crossSym, bc, ac, vc, 0⟩)])] }

/-- Concrete state for the triangular scan: `AAA-USDT` bid 1.0015, `BBB-USDT`
ask 1, cross pair `AAA-BBB` ask 1 on `OKX`, so the theoretical cross rate
1.0015 exceeds the quoted ask by 0.15% — more than the 0.1% margin but less
than the 0.2% triangular minimum threshold. -/
def triThinState : ArbitrageAnalyzer :=
  mkTriState "AAA-BBB" (2003/2000) (1004/1000) 1 (999/1000) 1 1 (999/1000) 1 1

/-- Concrete state for the statistical scan: on `OKX` both `BTC-USDT` and
`ETH-USDT` have 51 history entries with constant mids 100 and 50, so the
ratio series is constantly 2, while the current ratio (999) is wildly off. -/
def constRatioState : ArbitrageAnalyzer :=
  { initState with
      price_data :=
        [("OKX",
          [("BTC-USDT", ⟨"OKX", "BTC-USDT", 999, 1000, 3, 0⟩),
           ("ETH-USDT", ⟨"OKX", "ETH-USDT", 1/2, 1, 4, 0⟩)])]
      price_history :=
        [("OKX",
          [("BTC-USDT", List.replicate 51 ⟨0, 100, 100, 100, 0, 1⟩),
           ("ETH-USDT", List.replicate 51 ⟨0, 50, 50, 50, 0, 1⟩)])] }

/-- 1001 distinct ingest calls for the FIFO-eviction witness. -/
def fifoQuotes : List QuoteIn :=
  (List.range 1001).map (fun i : ℕ => ⟨(i : ℚ), (i : ℚ) + 1, 1, (i : ℚ)⟩)

theorem alookup_upsert_self {α : Type} (d : List (String × α)) (k : String) (v : α) :
    alookup (upsert d k v) k = some v := by
  induction d with
  | nil => simp [upsert, alookup]
  | cons p rest ih =>
    obtain ⟨k', v'⟩ := p
    by_cases h : k' = k
    · simp [upsert, h, alookup]
    · simp [upsert, h, alookup, ih]

theorem alookup_upsert_ne {α : Type} (d : List (String × α)) (k k0 : String) (v : α)
    (h : k0 ≠ k) : alookup (upsert d k v) k0 = alookup d k0 := by
  have h' : ¬ (k = k0) := fun hh => h hh.symm
  induction d with
  | nil =>
    show alookup [(k, v)] k0 = none
    simp [alookup, h']
  | cons p rest ih =>
    obtain ⟨k', v'⟩ := p
    by_cases hk : k' = k
    · subst hk
      show alookup ((if k' = k' then (k', v) :: rest else _)) k0 = _
      rw [if_pos rfl]
      show (if k' = k0 then some v else alookup rest k0) =
        (if k' = k0 then some v' else alookup rest k0)
      rw [if_neg h', if_neg h']
    · show alookup ((if k' = k then _ else (k', v') :: upsert rest k v)) k0 = _
      rw [if_neg hk]
      show (if k' = k0 then some v' else alookup (upsert rest k v) k0) = _
      rw [ih]
      rfl

theorem histAt_update_same (st : ArbitrageAnalyzer) (ex sym : String)
    (bid ask volume now : ℚ) :
    histAt (update_price_data st ex sym bid ask volume now) ex sym =
      trimHist (histAt st ex sym ++ [⟨now, bid, ask, (bid + ask) / 2, ask - bid, volume⟩]) := by
  unfold histAt update_price_data
  rw [alookup_upsert_self]
  simp only [Option.getD_some]
  rw [alookup_upsert_self]
  rfl

theorem histAt_update_ne (st : ArbitrageAnalyzer) (ex sym ex' sym' : String)
    (bid ask volume now : ℚ) (h : ex' ≠ ex ∨ sym' ≠ sym) :
    histAt (update_price_data st ex sym bid ask volume now) ex' sym' =
      histAt st ex' sym' := by
  unfold histAt update_price_data
  by_cases hex : ex' = ex
  · subst hex
    have hsym : sym' ≠ sym := h.resolve_left (fun hh => hh rfl)
    rw [alookup_upsert_self]
    simp only [Option.getD_some]
    rw [alookup_upsert_ne _ _ _ _ hsym]
  · rw [alookup_upsert_ne _ _ _ _ hex]

theorem trimHist_eq_of_le (l : List HistEntry) (h : l.length ≤ 1000) :
    trimHist l = l := by
  unfold trimHist
  rw [if_neg (by omega)]

theorem trimHist_of_gt (l : List HistEntry) (h : 1000 < l.length) :
    trimHist l = l.drop (l.length - 1000) := by
  unfold trimHist
  rw [if_pos h]

theorem trimHist_length_le (l : List HistEntry) : (trimHist l).length ≤ 1000 := by
  by_cases h : 1000 < l.length
  · rw [trimHist_of_gt l h]
    simp
    omega
  · rw [trimHist_eq_of_le l (by omega)]
    omega

theorem trimHist_trim_append (l l2 : List HistEntry) :
    trimHist (trimHist l ++ l2) = trimHist (l ++ l2) := by
  by_cases h : 1000 < l.length
  · have hAlen : (l.drop (l.length - 1000)).length = 1000 := by
      simp
      omega
    rw [trimHist_of_gt l h]
    by_cases h2 : l2 = []
    · subst h2
      simp only [List.append_nil]
      rw [trimHist_eq_of_le _ (le_of_eq hAlen), trimHist_of_gt l h]
    · have hl2 : 0 < l2.length := List.length_pos.mpr h2
      rw [trimHist_of_gt (l.drop (l.length - 1000) ++ l2)
            (by rw [List.length_append, hAlen]; omega),
          trimHist_of_gt (l ++ l2) (by rw [List.length_append]; omega)]
      rw [List.length_append, List.length_append, hAlen]
      have e1 : 1000 + l2.length - 1000 = l2.length := by omega
      rw [e1, List.drop_append_eq_append_drop, List.drop_append_eq_append_drop,
          List.drop_drop, hAlen]
      have i1 : l.length - 1000 + l2.length = l.length + l2.length - 1000 := by
        omega
      have i2 : l.length + l2.length - 1000 - l.length = l2.length - 1000 := by
        omega
      rw [i1, i2]
  · rw [trimHist_eq_of_le l (by omega)]

theorem histFold_eq_trim (es : List HistEntry) :
    ∀ h : List HistEntry, h.length ≤ 1000 → histFold h es = trimHist (h ++ es) := by
  induction es with
  | nil =>
    intro h hh
    show h = trimHist (h ++ [])
    rw [List.append_nil, trimHist_eq_of_le h hh]
  | cons e es' ih =>
    intro h hh
    show histFold (trimHist (h ++ [e])) es' = trimHist (h ++ e :: es')
    rw [ih _ (trimHist_length_le _), trimHist_trim_append]
    rw [List.append_assoc]
    rfl

theorem histAt_applySameKey (ex sym : String) (qs : List QuoteIn) :
    ∀ st : ArbitrageAnalyzer,
      histAt (applySameKey st ex sym qs) ex sym =
        histFold (histAt st ex sym) (qs.map mkHistEntry) := by
  induction qs with
  | nil =>
    intro st
    rfl
  | cons q qs' ih =>
    intro st
    show histAt (applySameKey (update_price_data st ex sym q.bid q.ask q.volume q.time) ex sym qs') ex sym = _
    rw [ih]
    rw [histAt_update_same]
    rfl

theorem histAt_initState (ex sym : String) : histAt initState ex sym = [] := by
  rfl

theorem histAt_update_le (st : ArbitrageAnalyzer) (ex sym ex' sym' : String)
    (bid ask volume now : ℚ)
    (hst : (histAt st ex' sym').length ≤ 1000) :
    (histAt (update_price_data st ex sym bid ask volume now) ex' sym').length ≤ 1000 := by
  by_cases hkey : ex' = ex ∧ sym' = sym
  · obtain ⟨h1, h2⟩ := hkey
    subst h1
    subst h2
    rw [histAt_update_same]
    exact trimHist_length_le _
  · rw [histAt_update_ne st ex sym ex' sym' bid ask volume now (by tauto)]
    exact hst

theorem histAt_applyUpdates_le (us : List (String × String × QuoteIn)) :
    ∀ st : ArbitrageAnalyzer,
      (∀ ex sym, (histAt st ex sym).length ≤ 1000) →
      ∀ ex sym, (histAt (applyUpdates st us) ex sym).length ≤ 1000 := by
  induction us with
  | nil =>
    intro st hst ex sym
    exact hst ex sym
  | cons u us' ih =>
    intro st hst ex sym
    show (histAt (applyUpdates (update_price_data st u.1 u.2.1 u.2.2.bid u.2.2.ask u.2.2.volume u.2.2.time) us') ex sym).length ≤ 1000
    exact ih _ (fun e s => histAt_update_le st u.1 u.2.1 e s _ _ _ _ (hst e s)) ex sym

/-- C9: for every (source, instrument) key, the history kept by
`update_price_data` never exceeds 1000 entries on any state reachable from
the constructor state; and after 1001 updates to one fresh key the history is
exactly the entries of the last 1000 updates in insertion order (FIFO
eviction, no reordering), so the first quote's entry is gone (whenever it is
not duplicated among the later ones) and the last quote's entry is present. -/
theorem c9_history_capacity_fifo :
    (∀ us : List (String × String × QuoteIn), ∀ ex sym : String,
        (histAt (applyUpdates initState us) ex sym).length ≤ 1000)
    ∧ (∀ st : ArbitrageAnalyzer, ∀ ex sym : String, ∀ qs : List QuoteIn,
        histAt st ex sym = [] → qs.length = 1001 →
        histAt (applySameKey st ex sym qs) ex sym = (qs.drop 1).map mkHistEntry
        ∧ (∀ q0 : QuoteIn, qs.head? = some q0 →
            mkHistEntry q0 ∉ (qs.drop 1).map mkHistEntry →
            mkHistEntry q0 ∉ histAt (applySameKey st ex sym qs) ex sym)
        ∧ (∀ qn : QuoteIn, qs.getLast? = some qn →
            mkHistEntry qn ∈ histAt (applySameKey st ex sym qs) ex sym)) := by
  constructor
  · intro us ex sym
    refine histAt_applyUpdates_le us initState (fun e s => ?_) ex sym
    rw [histAt_initState]
    simp
  · intro st ex sym qs h0 hlen
    have hmain : histAt (applySameKey st ex sym qs) ex sym =
        (qs.drop 1).map mkHistEntry := by
      rw [histAt_applySameKey, h0]
      rw [histFold_eq_trim _ [] (by simp)]
      rw [List.nil_append]
      rw [trimHist_of_gt _ (by simp [hlen])]
      rw [List.length_map, hlen]
      rw [List.map_drop]
    refine ⟨hmain, ?_, ?_⟩
    · intro q0 _ habs
      rw [hmain]
      exact habs
    · intro qn hqn
      rw [hmain]
      obtain ⟨ys, rfl⟩ := List.getLast?_eq_some_iff.mp hqn
      have hys : 1 ≤ ys.length := by
        simp at hlen
        omega
      rw [List.drop_append_eq_append_drop]
      have h10 : 1 - ys.length = 0 := by omega
      rw [h10]
      simp

theorem c9_history_capacity_fifo_witness :
    histAt (applySameKey initState "OKX" "BTC-USDT" fifoQuotes) "OKX" "BTC-USDT" =
      (fifoQuotes.drop 1).map mkHistEntry :=
  (c9_history_capacity_fifo.2 initState "OKX" "BTC-USDT" fifoQuotes rfl
    (by simp only [fifoQuotes, List.length_map, List.length_range])).1

theorem pickStep_le (b x : ArbitrageOpportunity) :
    b.profit_percent ≤ (pickStep b x).profit_percent := by
  unfold pickStep
  split
  · next h => exact le_of_lt h
  · exact le_refl _

theorem pickBest_le (os : List ArbitrageOpportunity) :
    ∀ o, o.profit_percent ≤ (pickBest o os).profit_percent := by
  induction os with
  | nil =>
    intro o
    exact le_refl _
  | cons x t ih =>
    intro o
    show o.profit_percent ≤ (pickBest (pickStep o x) t).profit_percent
    exact le_trans (pickStep_le o x) (ih (pickStep o x))

theorem pickBest_decomp (os : List ArbitrageOpportunity) :
    ∀ o, ∃ l1 l2,
      o :: os = l1 ++ pickBest o os :: l2
      ∧ (∀ x ∈ l1, x.profit_percent < (pickBest o os).profit_percent)
      ∧ (∀ x ∈ l2, x.profit_percent ≤ (pickBest o os).profit_percent) := by
  induction os with
  | nil =>
    intro o
    exact ⟨[], [], rfl, by simp, by simp⟩
  | cons x t ih =>
    intro o
    by_cases hx : x.profit_percent > o.profit_percent
    · have hpb : pickBest o (x :: t) = pickBest x t := by
        show pickBest (pickStep o x) t = _
        unfold pickStep
        rw [if_pos hx]
      obtain ⟨l1, l2, hsplit, h1, h2⟩ := ih x
      refine ⟨o :: l1, l2, ?_, ?_, ?_⟩
      · rw [hpb, List.cons_append, ← hsplit]
      · intro y hy
        rw [hpb]
        rcases List.mem_cons.mp hy with rfl | hmem
        · exact lt_of_lt_of_le hx (pickBest_le t x)
        · exact h1 y hmem
      · intro y hy
        rw [hpb]
        exact h2 y hy
    · have hpb : pickBest o (x :: t) = pickBest o t := by
        show pickBest (pickStep o x) t = _
        unfold pickStep
        rw [if_neg hx]
      obtain ⟨l1, l2, hsplit, h1, h2⟩ := ih o
      cases l1 with
      | nil =>
        rw [List.nil_append] at hsplit
        injection hsplit with ho hl2
        refine ⟨[], x :: t, ?_, by simp, ?_⟩
        · rw [hpb, ← ho, List.nil_append]
        · intro y hy
          rw [hpb, ← ho]
          rcases List.mem_cons.mp hy with rfl | hmem
          · exact le_of_not_lt hx
          · have hyy := h2 y (hl2 ▸ hmem)
            rw [← ho] at hyy
            exact hyy
      | cons a l1' =>
        rw [List.cons_append] at hsplit
        injection hsplit with ha ht
        refine ⟨o :: x :: l1', l2, ?_, ?_, ?_⟩
        · rw [hpb, List.cons_append, List.cons_append, ← ht]
        · intro y hy
          rw [hpb]
          have hoin : o.profit_percent < (pickBest o t).profit_percent := by
            refine h1 o ?_
            rw [← ha]
            exact List.mem_cons_self o l1'
          rcases List.mem_cons.mp hy with rfl | hy2
          · exact hoin
          rcases List.mem_cons.mp hy2 with rfl | hy3
          · exact lt_of_le_of_lt (le_of_not_lt hx) hoin
          · exact h1 y (List.mem_cons_of_mem a hy3)
        · intro y hy
          rw [hpb]
          exact h2 y hy

/-- C10: when the concatenation of all scan results over the configured
instrument universe is non-empty, `generate_arbitrage_signal` returns a
signal whose best opportunity is the first opportunity of maximal
`profit_percent` in the stable enumeration order (every earlier opportunity
is strictly worse, every later one no better — Python `max` semantics),
together with the total count and the per-kind counts over all opportunities
found. -/
theorem c10_scan_best_selection (st : ArbitrageAnalyzer) (now : ℚ)
    (hne : allOpportunities st now ≠ []) :
    ∃ sig : ArbitrageSignal, ∃ l1 l2 : List ArbitrageOpportunity,
      (generate_arbitrage_signal st now).1 = some sig
      ∧ allOpportunities st now = l1 ++ sig.best :: l2
      ∧ (∀ x ∈ l1, x.profit_percent < sig.best.profit_percent)
      ∧ (∀ x ∈ l2, x.profit_percent ≤ sig.best.profit_percent)
      ∧ sig.total_opportunities = (allOpportunities st now).length
      ∧ sig.cnt_cross =
          ((allOpportunities st now).filter (fun x => x.type == "cross_exchange")).length
      ∧ sig.cnt_triangular =
          ((allOpportunities st now).filter (fun x => x.type == "triangular")).length
      ∧ sig.cnt_statistical =
          ((allOpportunities st now).filter (fun x => x.type == "statistical")).length
      ∧ sig.cnt_future_spot =
          ((allOpportunities st now).filter (fun x => x.type == "future_spot")).length := by
  cases hall : allOpportunities st now with
  | nil => exact absurd hall hne
  | cons o os =>
    obtain ⟨l1, l2, hsplit, h1, h2⟩ := pickBest_decomp os o
    refine ⟨⟨gradeOf (pickBest o os).profit_percent, pickBest o os, (o :: os).length,
        ((o :: os).filter (fun x => x.type == "cross_exchange")).length,
        ((o :: os).filter (fun x => x.type == "triangular")).length,
        ((o :: os).filter (fun x => x.type == "statistical")).length,
        ((o :: os).filter (fun x => x.type == "future_spot")).length⟩,
      l1, l2, ?_, ?_, h1, h2, ?_, ?_, ?_, ?_, ?_⟩
    · simp only [generate_arbitrage_signal, hall]
    · exact hsplit
    · rfl
    · rfl
    · rfl
    · rfl
    · rfl

theorem latestAt_update_same (st : ArbitrageAnalyzer) (ex sym : String)
    (bid ask volume now : ℚ) :
    latestAt (update_price_data st ex sym bid ask volume now) ex sym =
      some ⟨ex, sym, bid, ask, volume, now⟩ := by
  simp [latestAt, update_price_data, alookup2, alookup_upsert_self]

/-- C1 (amended): `update_price_data` performs no validation — even when the
arguments are malformed (`ask < bid`, `bid ≤ 0` or `volume < 0`) the call
does not fail, overwrites the latest quote for the key with the new one and
appends the derived entry to the key's history (trimmed to 1000 entries). -/
theorem c1_update_no_validation (st : ArbitrageAnalyzer) (ex sym : String)
    (bid ask volume now : ℚ) (h : ask < bid ∨ bid ≤ 0 ∨ volume < 0) :
    latestAt (update_price_data st ex sym bid ask volume now) ex sym =
      some ⟨ex, sym, bid, ask, volume, now⟩
    ∧ histAt (update_price_data st ex sym bid ask volume now) ex sym =
        trimHist (histAt st ex sym ++ [⟨now, bid, ask, (bid + ask) / 2, ask - bid, volume⟩]) :=
  ⟨latestAt_update_same st ex sym bid ask volume now,
   histAt_update_same st ex sym bid ask volume now⟩

theorem c1_update_no_validation_witness :
    latestAt (update_price_data initState "OKX" "BTC-USDT" 10 5 1 0) "OKX" "BTC-USDT" =
      some ⟨"OKX", "BTC-USDT", 10, 5, 1, 0⟩
    ∧ histAt (update_price_data initState "OKX" "BTC-USDT" 10 5 1 0) "OKX" "BTC-USDT" =
        trimHist (histAt initState "OKX" "BTC-USDT" ++ [⟨0, 10, 5, (10 + 5) / 2, 5 - 10, 1⟩]) :=
  c1_update_no_validation initState "OKX" "BTC-USDT" 10 5 1 0 (Or.inl (by norm_num))

/-- C1 counterexample: the claim says a malformed update (here ask 5 < bid 10)
fails and leaves the state unchanged; in fact the quote is stored — the
latest quote for the key goes from `none` to the malformed quote and the
history grows to one entry. -/
theorem c1_update_no_validation_cex :
    ((5 : ℚ) < 10)
    ∧ latestAt initState "OKX" "BTC-USDT" = none
    ∧ latestAt (update_price_data initState "OKX" "BTC-USDT" 10 5 1 0) "OKX" "BTC-USDT" =
        some ⟨"OKX", "BTC-USDT", 10, 5, 1, 0⟩
    ∧ (histAt (update_price_data initState "OKX" "BTC-USDT" 10 5 1 0) "OKX" "BTC-USDT").length = 1 :=
  ⟨by norm_num, rfl, rfl, rfl⟩

theorem find_cross_of_empty (st : ArbitrageAnalyzer) (symbol : String) (now : ℚ)
    (h : st.price_data = []) :
    find_cross_exchange_arbitrage st symbol now = [] := by
  simp [find_cross_exchange_arbitrage, alookup2, alookup, h]

theorem find_future_spot_of_empty (st : ArbitrageAnalyzer) (symbol : String) (now : ℚ)
    (h : st.price_data = []) :
    find_future_spot_arbitrage st symbol now = [] := by
  simp [find_future_spot_arbitrage, alookup2, alookup, h]

theorem find_triangular_of_empty (st : ArbitrageAnalyzer) (base : String) (now : ℚ)
    (h : st.price_data = []) :
    find_triangular_arbitrage st base now = [] := by
  simp [find_triangular_arbitrage, alookup, h]

theorem find_statistical_of_empty (st : ArbitrageAnalyzer) (now : ℚ)
    (h : st.price_data = []) :
    find_statistical_arbitrage st now = [] := by
  simp [find_statistical_arbitrage, statPairAt, alookup2, alookup, h, statSymbols, pairsOf]

theorem allOpportunities_of_empty (st : ArbitrageAnalyzer) (now : ℚ)
    (h : st.price_data = []) :
    allOpportunities st now = [] := by
  simp [allOpportunities, find_cross_of_empty st _ now h,
        find_future_spot_of_empty st _ now h, find_triangular_of_empty st _ now h,
        find_statistical_of_empty st now h]

/-- C2 (amended): on an empty QuoteBook (`price_data` empty, no quote ever
ingested) the scan returns `None` — no opportunity and, in particular, no
zero-count aggregate — and leaves the state unchanged; it does not fail. -/
theorem c2_scan_empty (st : ArbitrageAnalyzer) (now : ℚ) (h : st.price_data = []) :
    generate_arbitrage_signal st now = (none, st) := by
  simp [generate_arbitrage_signal, allOpportunities_of_empty st now h]

theorem c2_scan_empty_witness :
    generate_arbitrage_signal initState 0 = (none, initState) :=
  c2_scan_empty initState 0 rfl

/-- C2 counterexample: on the empty constructor state the scan returns `None`
rather than a signal carrying a zero count for every opportunity kind — no
counts object exists at all. -/
theorem c2_scan_empty_cex :
    ¬ ∃ sig : ArbitrageSignal, (generate_arbitrage_signal initState 0).1 = some sig := by
  intro hex
  obtain ⟨sig, hs⟩ := hex
  have h : (generate_arbitrage_signal initState 0).1 = none := rfl
  rw [h] at hs
  cases hs

/-- C4 (amended): the scan leaves the QuoteBook (`price_data` and
`price_history`) unchanged, but it is not fully read-only: whenever it
returns a signal, the core appends the returned best opportunity to its own
`arbitrage_opportunities` list (it retains it beyond the returned value). -/
theorem c4_scan_effect (st : ArbitrageAnalyzer) (now : ℚ) :
    (generate_arbitrage_signal st now).2.price_data = st.price_data
    ∧ (generate_arbitrage_signal st now).2.price_history = st.price_history
    ∧ (generate_arbitrage_signal st now).2.arbitrage_opportunities =
        st.arbitrage_opportunities ++
          (((generate_arbitrage_signal st now).1).map (fun s => s.best)).toList := by
  cases hall : allOpportunities st now with
  | nil => simp [generate_arbitrage_signal, hall]
  | cons o os => simp [generate_arbitrage_signal, hall]

/-- C5 (amended): the fee applied for a source absent from the fee table is
the default 0.001 — not 0 — so for such a source
`net_buy = ask * 1.001` and `net_sell = bid * 0.999`. -/
theorem c5_default_fee (fees : List (String × ℚ)) (ex : String) (p q : ℚ)
    (h : alookup fees ex = none) :
    tradingFee fees ex = 1/1000
    ∧ netBuyPrice fees ex p = p * (1 + 1/1000)
    ∧ netSellPrice fees ex q = q * (1 - 1/1000) := by
  refine ⟨?_, ?_, ?_⟩ <;> simp [tradingFee, netBuyPrice, netSellPrice, h] <;> ring

theorem c5_default_fee_witness :
    tradingFee [] "SrcA" = 1/1000
    ∧ netBuyPrice [] "SrcA" 100 = 100 * (1 + 1/1000)
    ∧ netSellPrice [] "SrcA" 100 = 100 * (1 - 1/1000) :=
  c5_default_fee [] "SrcA" 100 100 rfl

/-- C5 counterexample: for a source absent from the fee table the applied fee
rate is 0.001, so `net_buy` is not the raw ask and `net_sell` is not the raw
bid, contradicting the claimed default of 0. -/
theorem c5_default_fee_cex :
    alookup ([] : List (String × ℚ)) "SrcA" = none
    ∧ tradingFee [] "SrcA" ≠ 0
    ∧ netBuyPrice [] "SrcA" 100 ≠ 100
    ∧ netSellPrice [] "SrcA" 100 ≠ 100 := by
  refine ⟨rfl, ?_, ?_, ?_⟩ <;>
    norm_num [netBuyPrice, netSellPrice, tradingFee, alookup]

theorem find_cross_mkTwo_emit (abid aask va bbid bask vb now : ℚ)
    (hva : abid ≤ aask) (hvb : bbid ≤ bask) (hx : aask < bbid)
    (hth : (bbid - aask) / aask * 100 ≥ 5 / 1000 * 100) :
    find_cross_exchange_arbitrage (mkTwoSourceState 0 0 abid aask va bbid bask vb)
      "BTC-USDT" now =
      [⟨"cross_exchange", "BTC-USDT", aask, bbid, "SrcA", "SrcB", bbid - aask,
        (bbid - aask) / aask * 100, min va vb, now,
        Confidence.rat (min (9/10) ((bbid - aask) / aask * 100 / 2))⟩] := by
  have hrev : ¬ bask < abid := not_lt.mpr (le_trans hva (le_trans (le_of_lt hx) hvb))
  have hth2 : 5 / 1000 ≤ (bbid - aask) / aask := by linarith
  simp [mkTwoSourceState, find_cross_exchange_arbitrage, alookup2, alookup, initState,
        netBuyPrice, netSellPrice, tradingFee, List.filterMap_cons, List.filterMap_nil,
        List.flatMap_cons, List.flatMap_nil, hx, hrev, hth2]

theorem find_cross_mkTwo_below (abid aask va bbid bask vb now : ℚ)
    (hva : abid ≤ aask) (hvb : bbid ≤ bask) (hx : aask < bbid)
    (hth : (bbid - aask) / aask * 100 < 5 / 1000 * 100) :
    find_cross_exchange_arbitrage (mkTwoSourceState 0 0 abid aask va bbid bask vb)
      "BTC-USDT" now = [] := by
  have hrev : ¬ bask < abid := not_lt.mpr (le_trans hva (le_trans (le_of_lt hx) hvb))
  have hth2 : ¬ (5 / 1000 ≤ (bbid - aask) / aask) := by
    rw [not_le]
    linarith
  simp [mkTwoSourceState, find_cross_exchange_arbitrage, alookup2, alookup, initState,
        netBuyPrice, netSellPrice, tradingFee, List.filterMap_cons, List.filterMap_nil,
        List.flatMap_cons, List.flatMap_nil, hx, hrev, hth2]

/-- C8 (amended): for two zero-fee sources with valid quotes
(`bid ≤ ask` each) and `SrcA`'s ask strictly below `SrcB`'s bid, the
cross-source scan yields exactly one `cross_exchange` opportunity with
profit ratio `(B.bid − A.ask) / A.ask` — provided that ratio also meets the
configured cross-source minimum threshold (0.005), which the source checks
before emitting. -/
theorem c8_cross_pair_amended (abid aask va bbid bask vb now : ℚ)
    (hva : abid ≤ aask) (hvb : bbid ≤ bask) (hx : aask < bbid)
    (hth : (bbid - aask) / aask ≥ 5 / 1000) :
    ∃ op : ArbitrageOpportunity,
      find_cross_exchange_arbitrage (mkTwoSourceState 0 0 abid aask va bbid bask vb)
        "BTC-USDT" now = [op]
      ∧ op.type = "cross_exchange"
      ∧ op.buy_exchange = "SrcA"
      ∧ op.sell_exchange = "SrcB"
      ∧ op.buy_price = aask
      ∧ op.sell_price = bbid
      ∧ profitRat op = (bbid - aask) / aask := by
  refine ⟨_, find_cross_mkTwo_emit abid aask va bbid bask vb now hva hvb hx
    (by linarith), rfl, rfl, rfl, rfl, rfl, ?_⟩
  show (bbid - aask) / aask * 100 / 100 = (bbid - aask) / aask
  rw [mul_div_assoc]
  norm_num

theorem c8_cross_pair_amended_witness :
    ∃ op : ArbitrageOpportunity,
      find_cross_exchange_arbitrage (mkTwoSourceState 0 0 99 100 5 101 102 7)
        "BTC-USDT" 0 = [op]
      ∧ op.type = "cross_exchange"
      ∧ op.buy_exchange = "SrcA"
      ∧ op.sell_exchange = "SrcB"
      ∧ op.buy_price = 100
      ∧ op.sell_price = 101
      ∧ profitRat op = (101 - 100) / 100 :=
  c8_cross_pair_amended 99 100 5 101 102 7 0 (by norm_num) (by norm_num)
    (by norm_num) (by norm_num)

/-- C8 counterexample: two zero-fee sources with `SrcA.ask = 100` strictly
below `SrcB.bid = 100.1` — the claim's premises hold — yet the scan emits no
opportunity at all, because the 0.1% margin is below the 0.5% cross-source
minimum threshold. -/
theorem c8_cross_pair_cex :
    ((100 : ℚ) < 1001/10)
    ∧ tradingFee twoSourceThinState.trading_fees "SrcA" = 0
    ∧ tradingFee twoSourceThinState.trading_fees "SrcB" = 0
    ∧ find_cross_exchange_arbitrage twoSourceThinState "BTC-USDT" 0 = [] := by
  refine ⟨by norm_num, rfl, rfl, ?_⟩
  exact find_cross_mkTwo_below 99 100 5 (1001/10) (501/5) 7 0 (by norm_num)
    (by norm_num) (by norm_num) (by norm_num)

/-- C7: every opportunity emitted by the cross-source scan has a profit
ratio at least the configured cross-source minimum threshold, for every
analyzer state (hence every threshold and fee configuration). -/
theorem c7_cross_threshold (st : ArbitrageAnalyzer) (symbol : String) (now : ℚ)
    (op : ArbitrageOpportunity)
    (hop : op ∈ find_cross_exchange_arbitrage st symbol now) :
    profitRat op ≥ st.min_profit_cross := by
  simp only [find_cross_exchange_arbitrage] at hop
  split at hop
  · simp at hop
  · obtain ⟨bp, _, hsp⟩ := List.mem_flatMap.mp hop
    obtain ⟨sp, _, heq⟩ := List.mem_filterMap.mp hsp
    split at heq
    · cases heq
    · split at heq
      · split at heq
        · rename_i hgain hth
          injection heq with hoe
          subst hoe
          show _ / 100 ≥ st.min_profit_cross
          simp only
          linarith
        · cases heq
      · cases heq

theorem find_cross_twoSourceState :
    find_cross_exchange_arbitrage twoSourceState "BTC-USDT" 0 =
      [⟨"cross_exchange", "BTC-USDT", 100, 101, "SrcA", "SrcB", 1, 1, 5, 0,
        Confidence.rat (1/2)⟩] := by
  have h := find_cross_mkTwo_emit 99 100 5 101 102 7 0 (by norm_num) (by norm_num)
    (by norm_num) (by norm_num)
  rw [show twoSourceState = mkTwoSourceState 0 0 99 100 5 101 102 7 from rfl, h]
  norm_num [min_def]

theorem allOpportunities_twoSourceState :
    allOpportunities twoSourceState 0 =
      [⟨"cross_exchange", "BTC-USDT", 100, 101, "SrcA", "SrcB", 1, 1, 5, 0,
        Confidence.rat (1/2)⟩] := by
  simp only [allOpportunities, signalSymbols, List.flatMap_cons, List.flatMap_nil,
    find_cross_twoSourceState]
  rfl

theorem c7_cross_threshold_witness :
    profitRat ⟨"cross_exchange", "BTC-USDT", 100, 101, "SrcA", "SrcB", 1, 1, 5, 0,
        Confidence.rat (1/2)⟩ ≥ twoSourceState.min_profit_cross :=
  c7_cross_threshold twoSourceState "BTC-USDT" 0 _
    (by rw [find_cross_twoSourceState]; exact List.mem_singleton.mpr rfl)

/-- C4 counterexample: on a state where the scan finds an opportunity, the
core's retained `arbitrage_opportunities` list grows — the scan is not
read-only and the core keeps the emitted opportunity beyond the returned
value. -/
theorem c4_scan_not_readonly_cex :
    (generate_arbitrage_signal twoSourceState 0).1 ≠ none
    ∧ (generate_arbitrage_signal twoSourceState 0).2.arbitrage_opportunities ≠
        twoSourceState.arbitrage_opportunities := by
  constructor <;>
    simp [generate_arbitrage_signal, allOpportunities_twoSourceState, pickBest]

theorem c10_scan_best_selection_witness :
    ∃ sig : ArbitrageSignal, ∃ l1 l2 : List ArbitrageOpportunity,
      (generate_arbitrage_signal twoSourceState 0).1 = some sig
      ∧ allOpportunities twoSourceState 0 = l1 ++ sig.best :: l2
      ∧ (∀ x ∈ l1, x.profit_percent < sig.best.profit_percent)
      ∧ (∀ x ∈ l2, x.profit_percent ≤ sig.best.profit_percent)
      ∧ sig.total_opportunities = (allOpportunities twoSourceState 0).length
      ∧ sig.cnt_cross =
          ((allOpportunities twoSourceState 0).filter (fun x => x.type == "cross_exchange")).length
      ∧ sig.cnt_triangular =
          ((allOpportunities twoSourceState 0).filter (fun x => x.type == "triangular")).length
      ∧ sig.cnt_statistical =
          ((allOpportunities twoSourceState 0).filter (fun x => x.type == "statistical")).length
      ∧ sig.cnt_future_spot =
          ((allOpportunities twoSourceState 0).filter (fun x => x.type == "future_spot")).length :=
  c10_scan_best_selection twoSourceState 0
    (by rw [allOpportunities_twoSourceState]; exact List.cons_ne_nil _ _)

theorem sum_of_constant (l : List ℚ) (c : ℚ) (h : ∀ x ∈ l, x = c) :
    l.sum = l.length * c := by
  induction l with
  | nil => simp
  | cons a t ih =>
    have ha : a = c := h a (List.mem_cons_self a t)
    have ht : ∀ x ∈ t, x = c := fun x hx => h x (List.mem_cons_of_mem a hx)
    rw [List.sum_cons, ih ht, ha, List.length_cons]
    push_cast
    ring

theorem pyVarPop_of_constList (l : List ℚ) (h : ConstList l) : pyVarPop l = 0 := by
  cases l with
  | nil => simp [pyVarPop, pyMean]
  | cons a t =>
    have hc : ∀ x ∈ a :: t, x = a := fun x hx => h x hx a (List.mem_cons_self a t)
    have hn : (((a :: t).length : ℚ)) ≠ 0 := by
      rw [List.length_cons]
      push_cast
      positivity
    have hmean : pyMean (a :: t) = a := by
      unfold pyMean
      rw [sum_of_constant _ a hc, mul_comm, mul_div_assoc, div_self hn, mul_one]
    have hz : ∀ y ∈ (a :: t).map (fun x => (x - pyMean (a :: t)) ^ 2), y = 0 := by
      intro y hy
      obtain ⟨x, hx, rfl⟩ := List.mem_map.mp hy
      rw [hmean, hc x hx]
      ring
    unfold pyVarPop
    rw [List.sum_eq_zero hz, zero_div]

theorem statPairAt_of_constList (st : ArbitrageAnalyzer) (s1 s2 : String)
    (now : ℚ) (ex : String) (h : ConstList (ratioSeriesAt st ex s1 s2)) :
    statPairAt st s1 s2 now ex = none := by
  rcases hpd1 : alookup2 st.price_data ex s1 with _ | price1
  · simp [statPairAt, hpd1]
  rcases hpd2 : alookup2 st.price_data ex s2 with _ | price2
  · simp [statPairAt, hpd1, hpd2]
  rcases hph1 : alookup2 st.price_history ex s1 with _ | hist1
  · simp [statPairAt, hpd1, hpd2, hph1]
  rcases hph2 : alookup2 st.price_history ex s2 with _ | hist2
  · simp [statPairAt, hpd1, hpd2, hph1, hph2]
  by_cases hlen : hist1.length > 50 ∧ hist2.length > 50
  · have hr : ratioSeriesAt st ex s1 s2 = ratioSeries hist1 hist2 := by
      simp [ratioSeriesAt, hph1, hph2, hlen]
    have hvar : pyVarPop (ratioSeries hist1 hist2) = 0 :=
      pyVarPop_of_constList _ (hr ▸ h)
    simp [statPairAt, hpd1, hpd2, hph1, hph2, hlen, hvar]
  · simp [statPairAt, hpd1, hpd2, hph1, hph2, hlen]

/-- C6: whenever the mid-price ratio series used by the mean-reversion scan
is constant (population variance 0, i.e. standard deviation 0), the scan
emits no opportunity for that pair and exchange — regardless of the current
ratio — and the whole statistical scan returns the empty list when this
holds for every scanned exchange.  (In the source this is the combined
effect of IEEE semantics at `std_ratio = 0.0`: the z-score is `inf`/`nan`
and both guards fail, so nothing is emitted and nothing is raised.) -/
theorem c6_constant_no_emission :
    (∀ st : ArbitrageAnalyzer, ∀ s1 s2 : String, ∀ now : ℚ, ∀ ex : String,
        ConstList (ratioSeriesAt st ex s1 s2) →
        statPairAt st s1 s2 now ex = none)
    ∧ (∀ st : ArbitrageAnalyzer, ∀ now : ℚ,
        (∀ ex ∈ st.exchanges, ConstList (ratioSeriesAt st ex "BTC-USDT" "ETH-USDT")) →
        find_statistical_arbitrage st now = []) := by
  constructor
  · exact statPairAt_of_constList
  · intro st now h
    unfold find_statistical_arbitrage
    rw [if_neg (by simp [statSymbols])]
    simp only [statSymbols, pairsOf, List.map_cons, List.map_nil, List.append_nil,
      List.nil_append, List.flatMap_cons, List.flatMap_nil]
    rw [List.filterMap_eq_nil_iff.mpr
      (fun ex hex => statPairAt_of_constList st "BTC-USDT" "ETH-USDT" now ex (h ex hex))]

theorem constList_replicate (n : ℕ) (c : ℚ) : ConstList (List.replicate n c) := by
  intro x hx y hy
  rw [List.eq_of_mem_replicate hx, List.eq_of_mem_replicate hy]

theorem ratioSeriesAt_constRatioState :
    ratioSeriesAt constRatioState "OKX" "BTC-USDT" "ETH-USDT" =
      List.replicate 50 (100/50 : ℚ) := by
  simp [ratioSeriesAt, constRatioState, initState, alookup2, alookup, ratioSeries, lastN]

theorem c6_constant_no_emission_witness :
    find_statistical_arbitrage constRatioState 0 = [] := by
  refine c6_constant_no_emission.2 constRatioState 0 ?_
  intro ex hex
  have hexs : ex ∈ ["OKX", "Binance", "Bybit", "Upbit", "Bithumb", "Coinone"] := hex
  fin_cases hexs
  · rw [ratioSeriesAt_constRatioState]
    exact constList_replicate 50 (100/50)
  all_goals
    intro x hx y hy
    simp [ratioSeriesAt, constRatioState, initState, alookup2, alookup] at hx

theorem find_tri_direct_emit (b1 a1 v1 b2 a2 v2 bc ac vc now : ℚ)
    (hm : b1 / a2 > ac * (1001/1000))
    (hth : (b1 / a2 - ac) / ac * 100 ≥ 2 / 1000 * 100) :
    find_triangular_arbitrage (mkTriState "AAA-BBB" b1 a1 v1 b2 a2 v2 bc ac vc)
      "USDT" now =
      [⟨"triangular", "AAA-BBB-USDT", ac, b1 / a2, "OKX", "OKX", b1 / a2 - ac,
        (b1 / a2 - ac) / ac * 100, min (min v1 v2) vc, now,
        Confidence.rat (4/5)⟩] := by
  have e1 : pyReplace "AAA-USDT" "-USDT" "" = "AAA" := rfl
  have e2 : pyReplace "BBB-USDT" "-USDT" "" = "BBB" := rfl
  have e3 : pyEndsWith "AAA-USDT" "-USDT" = true := rfl
  have e4 : pyEndsWith "BBB-USDT" "-USDT" = true := rfl
  have e5 : pyEndsWith "AAA-BBB" "-USDT" = false := rfl
  have hth2 : 2 / 1000 ≤ (b1 / a2 - ac) / ac := by linarith
  simp [mkTriState, find_triangular_arbitrage, alookup, initState,
        List.flatMap_cons, List.flatMap_nil, e1, e2, e3, e4, e5, hm, hth2]

theorem find_tri_direct_below (b1 a1 v1 b2 a2 v2 bc ac vc now : ℚ)
    (hth : ¬ (2 / 1000 ≤ (b1 / a2 - ac) / ac)) :
    find_triangular_arbitrage (mkTriState "AAA-BBB" b1 a1 v1 b2 a2 v2 bc ac vc)
      "USDT" now = [] := by
  have e1 : pyReplace "AAA-USDT" "-USDT" "" = "AAA" := rfl
  have e2 : pyReplace "BBB-USDT" "-USDT" "" = "BBB" := rfl
  have e3 : pyEndsWith "AAA-USDT" "-USDT" = true := rfl
  have e4 : pyEndsWith "BBB-USDT" "-USDT" = true := rfl
  have e5 : pyEndsWith "AAA-BBB" "-USDT" = false := rfl
  simp [mkTriState, find_triangular_arbitrage, alookup, initState,
        List.flatMap_cons, List.flatMap_nil, e1, e2, e3, e4, e5, hth]

theorem find_tri_inverse_emit (b1 a1 v1 b2 a2 v2 bc ac vc now : ℚ)
    (hm : b2 / a1 > ac * (1001/1000))
    (hth : (b2 / a1 - ac) / ac * 100 ≥ 2 / 1000 * 100) :
    find_triangular_arbitrage (mkTriState "BBB-AAA" b1 a1 v1 b2 a2 v2 bc ac vc)
      "USDT" now =
      [⟨"triangular", "BBB-AAA-USDT", ac, b2 / a1, "OKX", "OKX", b2 / a1 - ac,
        (b2 / a1 - ac) / ac * 100, min (min v2 v1) vc, now,
        Confidence.rat (4/5)⟩] := by
  have e1 : pyReplace "AAA-USDT" "-USDT" "" = "AAA" := rfl
  have e2 : pyReplace "BBB-USDT" "-USDT" "" = "BBB" := rfl
  have e3 : pyEndsWith "AAA-USDT" "-USDT" = true := rfl
  have e4 : pyEndsWith "BBB-USDT" "-USDT" = true := rfl
  have e5 : pyEndsWith "BBB-AAA" "-USDT" = false := rfl
  have hth2 : 2 / 1000 ≤ (b2 / a1 - ac) / ac := by linarith
  simp [mkTriState, find_triangular_arbitrage, alookup, initState,
        List.flatMap_cons, List.flatMap_nil, e1, e2, e3, e4, e5, hm, hth2]

/-- C3 counterexample: on `OKX`, `AAA-USDT` bid 1.0015, `BBB-USDT` ask 1 and
cross pair `AAA-BBB` ask 1, the implied cross rate 1.0015 exceeds the quoted
ask by 0.15% — strictly more than the claimed 0.1% margin — yet the
triangular scan emits nothing, because 0.15% is below the 0.2% triangular
minimum profit threshold the source additionally enforces. -/
theorem c3_triangular_margin_cex :
    ((2003/2000 : ℚ) / 1 > 1 * (1001/1000))
    ∧ find_triangular_arbitrage triThinState "USDT" 0 = [] := by
  constructor
  · norm_num
  · exact find_tri_direct_below (2003/2000) (1004/1000) 1 (999/1000) 1 1
      (999/1000) 1 1 0 (by norm_num)

/-- C3 (amended): in the triangular scan, for two instruments quoted in the
base on `OKX` plus a cross instrument in either orientation (`AAA-BBB` or
`BBB-AAA`), an opportunity is emitted when the implied theoretical cross
rate (bid of the relabelled first leg over ask of the second) exceeds the
quoted cross ask by the 0.1% margin and the relative deviation also meets
the 0.2% triangular minimum profit threshold; the emitted opportunity is of
kind `triangular` and its profit ratio equals the relative deviation. -/
theorem c3_triangular_amended :
    (∀ b1 a1 v1 b2 a2 v2 bc ac vc now : ℚ,
        b1 / a2 > ac * (1001/1000) →
        (b1 / a2 - ac) / ac * 100 ≥ 2 / 1000 * 100 →
        ∃ op : ArbitrageOpportunity,
          find_triangular_arbitrage (mkTriState "AAA-BBB" b1 a1 v1 b2 a2 v2 bc ac vc)
            "USDT" now = [op]
          ∧ op.type = "triangular"
          ∧ profitRat op = (b1 / a2 - ac) / ac)
    ∧ (∀ b1 a1 v1 b2 a2 v2 bc ac vc now : ℚ,
        b2 / a1 > ac * (1001/1000) →
        (b2 / a1 - ac) / ac * 100 ≥ 2 / 1000 * 100 →
        ∃ op : ArbitrageOpportunity,
          find_triangular_arbitrage (mkTriState "BBB-AAA" b1 a1 v1 b2 a2 v2 bc ac vc)
            "USDT" now = [op]
          ∧ op.type = "triangular"
          ∧ profitRat op = (b2 / a1 - ac) / ac) := by
  constructor
  · intro b1 a1 v1 b2 a2 v2 bc ac vc now hm hth
    refine ⟨_, find_tri_direct_emit b1 a1 v1 b2 a2 v2 bc ac vc now hm hth, rfl, ?_⟩
    show (b1 / a2 - ac) / ac * 100 / 100 = (b1 / a2 - ac) / ac
    rw [mul_div_assoc]
    norm_num
  · intro b1 a1 v1 b2 a2 v2 bc ac vc now hm hth
    refine ⟨_, find_tri_inverse_emit b1 a1 v1 b2 a2 v2 bc ac vc now hm hth, rfl, ?_⟩
    show (b2 / a1 - ac) / ac * 100 / 100 = (b2 / a1 - ac) / ac
    rw [mul_div_assoc]
    norm_num

theorem c3_triangular_amended_witness :
    (∃ op : ArbitrageOpportunity,
      find_triangular_arbitrage (mkTriState "AAA-BBB" (101/100) 2 1 1 1 1 1 1 1)
        "USDT" 0 = [op]
      ∧ op.type = "triangular"
      ∧ profitRat op = ((101/100 : ℚ) / 1 - 1) / 1)
    ∧ (∃ op : ArbitrageOpportunity,
      find_triangular_arbitrage (mkTriState "BBB-AAA" 1 1 1 (101/100) 2 1 1 1 1)
        "USDT" 0 = [op]
      ∧ op.type = "triangular"
      ∧ profitRat op = ((101/100 : ℚ) / 1 - 1) / 1) :=
  ⟨c3_triangular_amended.1 (101/100) 2 1 1 1 1 1 1 1 0 (by norm_num) (by norm_num),
   c3_triangular_amended.2 1 1 1 (101/100) 2 1 1 1 1 0 (by norm_num) (by norm_num)⟩
